import Mathlib

/-!
Shallow embedding of the server actions of the receiptsnap expense-tracking
application (src/actions/expense-actions.ts) together with the data model they
operate on (src/types). Firestore documents are modelled with association-list
stores keyed by document id; each server action becomes a pure function from a
database state and the verified caller identity to a result and a new database
state. Sequential awaited writes are threaded through the state one by one, so
an error raised between two writes leaves the earlier write applied, exactly as
in the source; the one Firestore transaction (invitation acceptance) is
modelled atomically. JavaScript truthiness of optional string fields and the
semantics of Number(x) || d are modelled explicitly.
-/

namespace ReceiptSnap

/-- Association-list lookup by string key, mirroring a Firestore document read. -/
def lookupL {α : Type} : List (String × α) → String → Option α
  | [], _ => none
  | (k', v) :: rest, k => if k' = k then some v else lookupL rest k

/-- Association-list write by string key: replaces the entry when the key is
present, appends it otherwise, mirroring a Firestore document write. -/
def setL {α : Type} : List (String × α) → String → α → List (String × α)
  | [], k, v => [(k, v)]
  | (k', v') :: rest, k, v =>
      if k' = k then (k, v) :: rest else (k', v') :: setL rest k v

/-- A Firestore collection: documents indexed by their id. -/
structure Store (α : Type) where
  entries : List (String × α)
deriving DecidableEq

def Store.get {α : Type} (s : Store α) (k : String) : Option α :=
  lookupL s.entries k

def Store.set {α : Type} (s : Store α) (k : String) (v : α) : Store α :=
  ⟨setL s.entries k v⟩

/-- Character-wise lower casing, modelling the JavaScript toLowerCase() call
used for the case-insensitive email comparison. -/
def strToLower (s : String) : String := ⟨s.data.map Char.toLower⟩

/-- JavaScript truthiness of a `string | null | undefined` value: `none` models
null/undefined, and the empty string is falsy as well. -/
def optTruthy : Option String → Bool
  | none => false
  | some s => !s.isEmpty

/-- The JavaScript expression Number(x) || d on a numeric-or-NaN input:
`none` models NaN (missing or non-numeric input), and a zero value falls
through to the default `d` because 0 is falsy. -/
def jsNumOr (x : Option Int) (d : Int) : Int :=
  match x with
  | none => d
  | some v => if v = 0 then d else v

/-- User roles inside a company (string literals owner/admin/auditor/user in
the source). -/
inductive Role
  | owner
  | admin
  | auditor
  | user
deriving DecidableEq

/-- Expense workflow status (src/types/expense.ts, ExpenseStatus). -/
inductive ExpenseStatus
  | pending
  | approved
  | rejected
deriving DecidableEq

/-- Invitation status (src/types/invitation.ts). -/
inductive InvStatus
  | pending
  | accepted
  | declined
  | expired
deriving DecidableEq

def InvStatus.toStr : InvStatus → String
  | .pending => "pending"
  | .accepted => "accepted"
  | .declined => "declined"
  | .expired => "expired"

/-- Stored user profile document (users collection): the fields the actions
read and write. `none` models a null/undefined field. -/
structure UserProfile where
  companyId : Option String := none
  role : Option Role := none
deriving DecidableEq

/-- Company document (src/types/company.ts). -/
structure Company where
  name : String
  ownerId : String
  members : List String
deriving DecidableEq

/-- Invitation document (src/types/invitation.ts); `acceptedAt` carries the
server timestamp, modelled as a natural number. -/
structure Invitation where
  companyId : String
  companyName : String
  inviteeEmail : String
  inviterId : String
  role : Role
  status : InvStatus
  acceptedBy : Option String := none
  acceptedAt : Option Nat := none
deriving DecidableEq

/-- A stored expense line item (src/types/expense.ts, ExpenseItem). -/
structure ExpenseItem where
  name : String
  quantity : Int
  netPrice : Int
deriving DecidableEq

/-- Stored expense document (src/types/expense.ts, Expense); timestamps are
omitted, category and payment method kept as strings as at runtime. -/
structure Expense where
  userId : String
  company : String
  companyId : Option String
  items : List ExpenseItem
  category : String
  totalAmount : Int
  paymentMethod : String
  status : ExpenseStatus
deriving DecidableEq

/-- A raw form line item as it reaches saveExpense after Number conversion:
`none` models a missing or non-numeric entry (NaN). -/
structure RawItem where
  name : String
  quantity : Option Int
  netPrice : Option Int
deriving DecidableEq

/-- The expense form payload (src/types/expense.ts, ExpenseFormData). The
companyId and status fields exist on the form type but are never read by
saveExpense. -/
structure ExpenseFormData where
  company : String
  companyId : Option String := none
  items : List RawItem
  category : String
  paymentMethod : String
  status : Option ExpenseStatus := none
deriving DecidableEq

/-- The whole backing state: the four Firestore collections plus the identity
provider directory mapping an email address to the uid of the auth user
(consulted by getUserByEmail). -/
structure DB where
  users : Store UserProfile
  companies : Store Company
  invitations : Store Invitation
  expenses : Store Expense
  authEmails : Store String
deriving DecidableEq

/-- Outcome of a server action: the `success` flag and optional error message
of the returned object literal. -/
structure ActionOut where
  success : Bool
  error : Option String := none
deriving DecidableEq

def ok : ActionOut := { success := true }

def failOut (msg : String) : ActionOut := { success := false, error := some msg }

/-- The fixed category allow-list (src/types/expense.ts, expenseCategories). -/
def expenseCategories : List String :=
  ["food", "travel", "supplies", "entertainment", "other"]

/-- The fixed payment-method allow-list (src/types/expense.ts, paymentMethods). -/
def paymentMethods : List String :=
  ["card", "cash", "online", "other"]

/-- validateCategory (expense-actions.ts): keep a recognised category, coerce
anything else to other. -/
def validateCategory (aiCategory : String) : String :=
  if aiCategory ∈ expenseCategories then aiCategory else "other"

/-- validatePaymentMethod (expense-actions.ts): keep a recognised method,
coerce anything else to other. -/
def validatePaymentMethod (aiPaymentMethod : String) : String :=
  if aiPaymentMethod ∈ paymentMethods then aiPaymentMethod else "other"

/-- A line item as returned by the extractReceiptData flow, after the zod
parse: `none` on a numeric field models NaN. -/
structure RawAIItem where
  name : String
  quantity : Option Int
  netPrice : Option Int
deriving DecidableEq

/-- The structured result returned by the AI extraction flow, as seen by
processReceiptImage; the empty string on expenseDate models a falsy value. -/
structure AIReceiptResult where
  company : String
  items : List RawAIItem
  category : String
  paymentMethod : String
  expenseDate : String
deriving DecidableEq

/-- The normalized value returned by processReceiptImage on success. -/
structure ProcessedReceipt where
  company : String
  items : List ExpenseItem
  category : String
  paymentMethod : String
  expenseDate : String
deriving DecidableEq

/-- The per-item normalization inside processReceiptImage:
quantity = Number(item.quantity) || 1 and netPrice = Number(item.netPrice) || 0. -/
def procItem (item : RawAIItem) : ExpenseItem :=
  { name := item.name
    quantity := jsNumOr item.quantity 1
    netPrice := jsNumOr item.netPrice 0 }

/-- processReceiptImage (expense-actions.ts lines 71-97), success path: map the
items through the numeric defaults, validate category and payment method, and
default a falsy expense date to the current date (`today`). -/
def processReceiptImage (result : AIReceiptResult) (today : String) : ProcessedReceipt :=
  { company := result.company
    items := result.items.map procItem
    category := validateCategory result.category
    paymentMethod := validatePaymentMethod result.paymentMethod
    expenseDate := if result.expenseDate = "" then today else result.expenseDate }

/-- The per-item transformation inside saveExpense:
quantity = Math.max(1, Number(item.quantity) || 1), netPrice = Number(item.netPrice) || 0. -/
def saveItem (item : RawItem) : ExpenseItem :=
  { name := item.name
    quantity := max 1 (jsNumOr item.quantity 1)
    netPrice := jsNumOr item.netPrice 0 }

/-- saveExpense (expense-actions.ts lines 99-166), path after the ID token is
verified as uid: read the caller profile, normalize the items, derive the
total, and add the expense document under the Firestore-generated `freshId`.
The stored companyId and status come solely from the caller profile
(userProfile?.companyId with JavaScript truthiness), never from the form. -/
def saveExpense (db : DB) (uid : String) (data : ExpenseFormData) (freshId : String) :
    ActionOut × DB :=
  let userCompanyId : Option String := (db.users.get uid).bind UserProfile.companyId
  let items : List ExpenseItem := data.items.map saveItem
  let totalAmount : Int := items.foldl (fun sum item => sum + item.netPrice) 0
  let expenseData : Expense :=
    { userId := uid
      company := data.company
      companyId := if optTruthy userCompanyId then userCompanyId else none
      items := items
      category := data.category
      totalAmount := totalAmount
      paymentMethod := data.paymentMethod
      status := if optTruthy userCompanyId then ExpenseStatus.pending
                else ExpenseStatus.approved }
  (ok, { db with expenses := db.expenses.set freshId expenseData })

/-- updateExpenseStatus (expense-actions.ts lines 272-305), path after token
verification: look up the expense, require it to be a company expense, require
the caller profile to exist with a matching company id and an owner or admin
role, then write the requested status. The current status is never read. -/
def updateExpenseStatus (db : DB) (uid expenseId : String) (newStatus : ExpenseStatus) :
    ActionOut × DB :=
  match db.expenses.get expenseId with
  | none => (failOut "Expense not found.", db)
  | some expenseData =>
    if optTruthy expenseData.companyId = false then
      (failOut "This expense is not a company expense.", db)
    else
      match db.users.get uid with
      | none => (failOut "User profile not found.", db)
      | some userData =>
        if expenseData.companyId ≠ userData.companyId ∨
            (userData.role ≠ some Role.owner ∧ userData.role ≠ some Role.admin) then
          (failOut "You are not authorized to update this expense status.", db)
        else
          (ok, { db with expenses :=
                  db.expenses.set expenseId { expenseData with status := newStatus } })

/-- createCompany (expense-actions.ts lines 309-343), path after token
verification: reject a caller whose profile already carries a truthy company
id, create the company with the caller as owner and sole member under the
generated `freshId`, then merge companyId and an owner role into the caller
profile. -/
def createCompany (db : DB) (uid companyName freshId : String) : ActionOut × DB :=
  let already : Bool :=
    match db.users.get uid with
    | some u => optTruthy u.companyId
    | none => false
  if already then (failOut "User is already part of a company.", db)
  else
    let companyData : Company := { name := companyName, ownerId := uid, members := [uid] }
    let db1 : DB := { db with companies := db.companies.set freshId companyData }
    let u2 : UserProfile :=
      match db1.users.get uid with
      | some u => { u with companyId := some freshId, role := some Role.owner }
      | none => { companyId := some freshId, role := some Role.owner }
    (ok, { db1 with users := db1.users.set uid u2 })

/-- A JavaScript runtime error inside the invitee-membership check of
sendInvitation. -/
inductive JsErr
  | typeError (msg : String)
  | authUserNotFound
deriving DecidableEq

/-- The body of the inner try block of sendInvitation (lines 373-387):
getUserByEmail either raises auth/user-not-found or yields the invitee uid;
the code then fetches the invitee profile document and calls
inviteeProfileDoc.exists(). On an admin-SDK snapshot, exists is a boolean
property rather than a method, so that call itself raises a TypeError before
the membership comparison below it is ever reached. -/
def checkInviteeMembership (db : DB) (inviteeEmail : String) : Except JsErr Unit :=
  match db.authEmails.get inviteeEmail with
  | none => Except.error JsErr.authUserNotFound
  | some _inviteeUid =>
      Except.error (JsErr.typeError "inviteeProfileDoc.exists is not a function")

/-- sendInvitation (expense-actions.ts lines 346-407), path after token
verification: require the company to exist and the inviter profile to match it
with an owner or admin role; only owners may invite owners. The inner
already-a-member check can only raise: auth/user-not-found is deliberately
ignored, and the TypeError from the exists() call is also merely logged by the
inner catch, so the flow always continues and adds the invitation document
under the generated `freshId`. -/
def sendInvitation (db : DB) (inviterUid companyId inviteeEmail : String)
    (role : Role) (freshId : String) : ActionOut × DB :=
  match db.companies.get companyId with
  | none => (failOut "Company not found.", db)
  | some companyData =>
    match db.users.get inviterUid with
    | none => (failOut "Inviter profile not found.", db)
    | some inviterProfile =>
      if inviterProfile.companyId ≠ some companyId ∨
          (inviterProfile.role ≠ some Role.owner ∧ inviterProfile.role ≠ some Role.admin) then
        (failOut "You are not authorized to invite users to this company.", db)
      else if role = Role.owner ∧ inviterProfile.role ≠ some Role.owner then
        (failOut "Only owners can invite other owners.", db)
      else
        let invitationData : Invitation :=
          { companyId := companyId
            companyName := companyData.name
            inviteeEmail := inviteeEmail
            inviterId := inviterUid
            role := role
            status := InvStatus.pending }
        let created : ActionOut × DB :=
          (ok, { db with invitations := db.invitations.set freshId invitationData })
        match checkInviteeMembership db inviteeEmail with
        | Except.error _ => created
        | Except.ok _ => created

/-- The merge write on the accepting user profile inside the acceptance
transaction: set companyId and the role carried by the invitation, creating
the document when missing. -/
def acceptedProfile (db : DB) (uid : String) (inv : Invitation) : UserProfile :=
  match db.users.get uid with
  | some u => { u with companyId := some inv.companyId, role := some inv.role }
  | none => { companyId := some inv.companyId, role := some inv.role }

/-- acceptInvitation (expense-actions.ts lines 409-465), path after token
verification yields the caller uid and optional email: look up the invitation,
require the caller email to match the invitee email case-insensitively
(a missing email never matches), require a pending status, then run the
Firestore transaction, which throws (atomically, with no writes) when the
company no longer exists and otherwise applies all three updates: arrayUnion
the caller into the members, mark the invitation accepted with acceptor id and
timestamp `now`, and merge company id and invited role into the caller
profile. -/
def acceptInvitation (db : DB) (uid : String) (email : Option String)
    (invitationId : String) (now : Nat) : ActionOut × DB :=
  match db.invitations.get invitationId with
  | none => (failOut "Invitation not found.", db)
  | some inv =>
    if email.map strToLower ≠ some (strToLower inv.inviteeEmail) then
      (failOut "This invitation is not for you.", db)
    else if inv.status ≠ InvStatus.pending then
      (failOut ("Invitation already " ++ inv.status.toStr ++ "."), db)
    else
      match db.companies.get inv.companyId with
      | none => (failOut "Company associated with this invitation no longer exists.", db)
      | some c =>
        let c2 : Company :=
          { c with members := if uid ∈ c.members then c.members else c.members ++ [uid] }
        let inv2 : Invitation :=
          { inv with status := InvStatus.accepted, acceptedBy := some uid,
                     acceptedAt := some now }
        (ok, { db with
                companies := db.companies.set inv.companyId c2
                invitations := db.invitations.set invitationId inv2
                users := db.users.set uid (acceptedProfile db uid inv) })

/-- The writes performed by updateUserRole once authorization passed
(lines 504-511): an ownership transfer first demotes the previous owner to
admin, then rewrites the company ownerId, then sets the target role; the three
writes are sequential document updates, so a missing target profile aborts
after the first two writes already persisted. A plain role change is a single
update on the target profile, which fails with no write when the document is
missing. -/
def performRoleChange (db : DB) (companyId : String) (companyData : Company)
    (targetUserId : String) (newRole : Role) : ActionOut × DB :=
  if newRole = Role.owner ∧ targetUserId ≠ companyData.ownerId then
    match db.users.get companyData.ownerId with
    | none => (failOut "NOT_FOUND: no document to update", db)
    | some oldOwner =>
      let demoted : UserProfile := { oldOwner with role := some Role.admin }
      let db1 : DB := { db with users := db.users.set companyData.ownerId demoted }
      let transferred : Company := { companyData with ownerId := targetUserId }
      let db2 : DB := { db1 with companies := db1.companies.set companyId transferred }
      match db2.users.get targetUserId with
      | none => (failOut "NOT_FOUND: no document to update", db2)
      | some t =>
        (ok, { db2 with users := db2.users.set targetUserId { t with role := newRole } })
  else
    match db.users.get targetUserId with
    | none => (failOut "NOT_FOUND: no document to update", db)
    | some t =>
      (ok, { db with users := db.users.set targetUserId { t with role := newRole } })

/-- updateUserRole (expense-actions.ts lines 467-519), path after token
verification: the requester profile must exist and carry the target company
id. An owner requester passes a sole-owner guard whose member filter uses an
asynchronous predicate — every predicate application returns a Promise, which
is truthy, so the filter keeps every member and the guard degenerates to
comparing the full member count with 1. An admin requester is rejected for an
owner or admin target role; otherwise the code calls
targetUserProfileDoc.exists(), which raises a TypeError (exists is a property
on admin-SDK snapshots), so the outer catch reports failure before any write.
Any other requester role is rejected outright. -/
def updateUserRole (db : DB) (requesterUid targetUserId companyId : String)
    (newRole : Role) : ActionOut × DB :=
  match db.users.get requesterUid with
  | none => (failOut "Requester profile not found.", db)
  | some requesterProfile =>
    if requesterProfile.companyId ≠ some companyId then
      (failOut "Requester not part of this company.", db)
    else
      match db.companies.get companyId with
      | none => (failOut "Company not found.", db)
      | some companyData =>
        if requesterProfile.role = some Role.owner then
          if targetUserId = companyData.ownerId ∧ newRole ≠ Role.owner ∧
              companyData.members.length ≤ 1 then
            (failOut "Cannot demote the sole owner.", db)
          else
            performRoleChange db companyId companyData targetUserId newRole
        else if requesterProfile.role = some Role.admin then
          if newRole = Role.owner ∨ newRole = Role.admin then
            (failOut "Admins cannot promote to owner or admin.", db)
          else
            (failOut "targetUserProfileDoc.exists is not a function", db)
        else
          (failOut "You are not authorized to change roles.", db)

/-- removeUserFromCompany (expense-actions.ts lines 521-565), path after token
verification: the company must exist and the target must not be its owner; the
requester profile must match the company with an owner or admin role. For an
admin requester the code calls targetUserProfileDoc.exists(), which raises a
TypeError caught by the outer catch, so an admin can never actually remove
anyone. An owner requester then clears the target profile (failing with no
write when the document is missing) and removes the target from the member
array. -/
def removeUserFromCompany (db : DB) (requesterUid targetUserId companyId : String) :
    ActionOut × DB :=
  match db.companies.get companyId with
  | none => (failOut "Company not found.", db)
  | some companyData =>
    if targetUserId = companyData.ownerId then
      (failOut "Owner cannot be removed. Transfer ownership first.", db)
    else
      match db.users.get requesterUid with
      | none => (failOut "Requester profile not found.", db)
      | some requesterProfile =>
        if requesterProfile.companyId ≠ some companyId ∨
            (requesterProfile.role ≠ some Role.owner ∧
             requesterProfile.role ≠ some Role.admin) then
          (failOut "You are not authorized to remove users from this company.", db)
        else if requesterProfile.role = some Role.admin then
          (failOut "targetUserProfileDoc.exists is not a function", db)
        else
          match db.users.get targetUserId with
          | none => (failOut "NOT_FOUND: no document to update", db)
          | some t =>
            let cleared : UserProfile := { t with companyId := none, role := none }
            let db1 : DB := { db with users := db.users.set targetUserId cleared }
            let c2 : Company := { companyData with
              members := companyData.members.filter (fun m => m ≠ targetUserId) }
            (ok, { db1 with companies := db1.companies.set companyId c2 })

/-- leaveCompany (expense-actions.ts lines 567-594), path after token
verification: the company must exist and the caller must not be its owner;
no check that the caller is a member or even belongs to this company is ever
made. The caller profile is cleared (an update that fails with no write when
the profile document is missing) and the caller is removed from the member
array. -/
def leaveCompany (db : DB) (uid companyId : String) : ActionOut × DB :=
  match db.companies.get companyId with
  | none => (failOut "Company not found.", db)
  | some companyData =>
    if uid = companyData.ownerId then
      (failOut "Owner cannot leave. Transfer ownership or delete company.", db)
    else
      match db.users.get uid with
      | none => (failOut "NOT_FOUND: no document to update", db)
      | some u =>
        let cleared : UserProfile := { u with companyId := none, role := none }
        let db1 : DB := { db with users := db.users.set uid cleared }
        let c2 : Company := { companyData with
          members := companyData.members.filter (fun m => m ≠ uid) }
        (ok, { db1 with companies := db1.companies.set companyId c2 })

/-- Database for the C1 counterexample: company expense e1 already approved,
caller a an admin of the same company c1. -/
def dbC1 : DB :=
  { users := ⟨[("a", { companyId := some "c1", role := some Role.admin })]⟩
    companies := ⟨[]⟩
    invitations := ⟨[]⟩
    expenses := ⟨[("e1",
      { userId := "u", company := "Acme", companyId := some "c1", items := [],
        category := "food", totalAmount := 0, paymentMethod := "card",
        status := ExpenseStatus.approved })]⟩
    authEmails := ⟨[]⟩ }

/-- C2 counterexample state: invitation i1 is pending for b@x.com, but the
company c9 it refers to no longer exists. -/
def dbC2 : DB :=
  { users := ⟨[("b", {})]⟩
    companies := ⟨[]⟩
    invitations := ⟨[("i1",
      { companyId := "c9", companyName := "Ghost", inviteeEmail := "b@x.com",
        inviterId := "o", role := Role.user, status := InvStatus.pending })]⟩
    expenses := ⟨[]⟩
    authEmails := ⟨[]⟩ }

/-- Pending invitation used by the C2 witness state. -/
def invC2w : Invitation :=
  { companyId := "c1", companyName := "Acme", inviteeEmail := "b@x.com",
    inviterId := "o", role := Role.user, status := InvStatus.pending }

/-- C2 witness state: pending invitation i1 for b@x.com into the existing
company c1. -/
def dbC2w : DB :=
  { users := ⟨[("b", {})]⟩
    companies := ⟨[("c1", { name := "Acme", ownerId := "o", members := ["o"] })]⟩
    invitations := ⟨[("i1", invC2w)]⟩
    expenses := ⟨[]⟩
    authEmails := ⟨[]⟩ }

/-- Empty database used by the C4 witness. -/
def dbC4 : DB :=
  { users := ⟨[]⟩, companies := ⟨[]⟩, invitations := ⟨[]⟩, expenses := ⟨[]⟩,
    authEmails := ⟨[]⟩ }

/-- Form payload for the C4 witness: a missing, a zero, a negative and a
positive quantity, plus a missing net price. -/
def dataC4 : ExpenseFormData :=
  { company := "Acme"
    items :=
      [ { name := "a", quantity := none, netPrice := some 3 },
        { name := "b", quantity := some 0, netPrice := none },
        { name := "c", quantity := some (-3), netPrice := some 4 },
        { name := "d", quantity := some 2, netPrice := some 5 } ]
    category := "food"
    paymentMethod := "card" }

/-- The expense document stored by saveExpense at the C4 witness input. -/
def expC4 : Expense :=
  { userId := "u"
    company := "Acme"
    companyId := none
    items :=
      [ { name := "a", quantity := 1, netPrice := 3 },
        { name := "b", quantity := 1, netPrice := 0 },
        { name := "c", quantity := 1, netPrice := 4 },
        { name := "d", quantity := 2, netPrice := 5 } ]
    category := "food"
    totalAmount := 12
    paymentMethod := "card"
    status := ExpenseStatus.approved }

/-- Pending invitation used by the C5 witness state. -/
def invC5 : Invitation :=
  { companyId := "c1", companyName := "Acme", inviteeEmail := "b@x.com",
    inviterId := "o", role := Role.user, status := InvStatus.pending }

/-- C5 witness state: a pending invitation into an existing company, the
invitee not yet a member. -/
def dbC5 : DB :=
  { users := ⟨[("b", {})]⟩
    companies := ⟨[("c1", { name := "Acme", ownerId := "o", members := ["o"] })]⟩
    invitations := ⟨[("i1", invC5)]⟩
    expenses := ⟨[]⟩
    authEmails := ⟨[]⟩ }

/-- C6 counterexample state: company c1 owned by o with o as sole member, and
an existing user x who is not a member of c1. -/
def dbC6 : DB :=
  { users := ⟨[("o", { companyId := some "c1", role := some Role.owner }),
               ("x", {})]⟩
    companies := ⟨[("c1", { name := "Acme", ownerId := "o", members := ["o"] })]⟩
    invitations := ⟨[]⟩
    expenses := ⟨[]⟩
    authEmails := ⟨[]⟩ }

/-- C7 witness state: admin a and owner t in company c1. -/
def dbC7 : DB :=
  { users := ⟨[("a", { companyId := some "c1", role := some Role.admin }),
               ("t", { companyId := some "c1", role := some Role.owner })]⟩
    companies := ⟨[("c1", { name := "Acme", ownerId := "t", members := ["t", "a"] })]⟩
    invitations := ⟨[]⟩
    expenses := ⟨[]⟩
    authEmails := ⟨[]⟩ }

/-- C8 failing-input state: owner o of company c1, user ub already a member of
c1, and the identity provider resolving b@x.com to ub. -/
def dbC8 : DB :=
  { users := ⟨[("o", { companyId := some "c1", role := some Role.owner }),
               ("ub", { companyId := some "c1", role := some Role.user })]⟩
    companies := ⟨[("c1", { name := "Acme", ownerId := "o", members := ["o", "ub"] })]⟩
    invitations := ⟨[]⟩
    expenses := ⟨[]⟩
    authEmails := ⟨[("b@x.com", "ub")]⟩ }

/-- C9 input: an unrecognised category, a negative quantity and a falsy
expense date, as the AI model may return. -/
def rawC9 : AIReceiptResult :=
  { company := "Shop"
    items := [{ name := "widget", quantity := some (-2), netPrice := some 5 }]
    category := "grocery"
    paymentMethod := "card"
    expenseDate := "" }

/-- C10 witness state: caller z belongs to a different company and is not a
member of c1. -/
def dbC10 : DB :=
  { users := ⟨[("z", { companyId := some "other", role := some Role.user })]⟩
    companies := ⟨[("c1", { name := "Acme", ownerId := "o", members := ["o", "m"] })]⟩
    invitations := ⟨[]⟩
    expenses := ⟨[]⟩
    authEmails := ⟨[]⟩ }

theorem lookupL_setL_self {α : Type} (l : List (String × α)) (k : String) (v : α) :
    lookupL (setL l k v) k = some v := by
  induction l with
  | nil => simp [setL, lookupL]
  | cons p rest ih =>
      by_cases h : p.1 = k
      · simp [setL, lookupL, h]
      · simp [setL, lookupL, h, ih]

theorem lookupL_setL_ne {α : Type} (l : List (String × α)) (k k' : String) (v : α)
    (h : k' ≠ k) : lookupL (setL l k v) k' = lookupL l k' := by
  have hk : ¬k = k' := fun hh => h hh.symm
  induction l with
  | nil => simp [setL, lookupL, hk]
  | cons p rest ih =>
      by_cases hp : p.1 = k
      · simp [setL, lookupL, hp, hk]
      · simp [setL, lookupL, hp, ih]

theorem Store.get_set_self {α : Type} (s : Store α) (k : String) (v : α) :
    (s.set k v).get k = some v :=
  lookupL_setL_self s.entries k v

theorem Store.get_set_ne {α : Type} (s : Store α) (k k' : String) (v : α)
    (h : k' ≠ k) : (s.set k v).get k' = s.get k' :=
  lookupL_setL_ne s.entries k k' v h

/-- C1 counterexample: expense e1 is already approved, yet the admin call
requesting rejected succeeds and overwrites the stored status, so the call is
not rejected with an already-approved failure and an approved-to-rejected
transition is effected. -/
theorem C1_counterexample :
    (dbC1.expenses.get "e1").map Expense.status = some ExpenseStatus.approved ∧
    (updateExpenseStatus dbC1 "a" "e1" ExpenseStatus.rejected).1.success = true ∧
    ((updateExpenseStatus dbC1 "a" "e1" ExpenseStatus.rejected).2.expenses.get "e1").map
      Expense.status = some ExpenseStatus.rejected := by
  refine ⟨rfl, rfl, rfl⟩

/-- C1 (amended): updateExpenseStatus never reads the current status. Whenever
the call succeeds it stores exactly the requested status, whatever the
previous one was (so approved or rejected expenses can be overwritten or
re-opened); whenever it fails the database is unchanged. -/
theorem C1_updateExpenseStatus_no_status_check (db : DB) (uid expenseId : String)
    (newStatus : ExpenseStatus) :
    ((updateExpenseStatus db uid expenseId newStatus).1.success = true →
      ((updateExpenseStatus db uid expenseId newStatus).2.expenses.get expenseId).map
        Expense.status = some newStatus) ∧
    ((updateExpenseStatus db uid expenseId newStatus).1.success = false →
      (updateExpenseStatus db uid expenseId newStatus).2 = db) := by
  cases h1 : db.expenses.get expenseId with
  | none => simp [updateExpenseStatus, h1, failOut]
  | some e =>
      by_cases h2 : optTruthy e.companyId = false
      · simp [updateExpenseStatus, h1, h2, failOut]
      · cases h3 : db.users.get uid with
        | none => simp [updateExpenseStatus, h1, h2, h3, failOut]
        | some u =>
            by_cases h4 : e.companyId ≠ u.companyId ∨
              (u.role ≠ some Role.owner ∧ u.role ≠ some Role.admin)
            · simp [updateExpenseStatus, h1, h2, h3, h4, failOut]
            · simp [updateExpenseStatus, h1, h2, h3, h4, failOut, ok,
                    Store.get_set_self]

/-- C1 witness: the amended theorem applied at the counterexample state, where
the success hypothesis is discharged by evaluation. -/
theorem C1_witness :
    ((updateExpenseStatus dbC1 "a" "e1" ExpenseStatus.approved).2.expenses.get "e1").map
      Expense.status = some ExpenseStatus.approved :=
  (C1_updateExpenseStatus_no_status_check dbC1 "a" "e1" ExpenseStatus.approved).1 rfl

/-- C2 counterexample: the caller email matches the invitee email
case-insensitively and the invitation is pending, yet acceptInvitation fails
(the referenced company no longer exists) and the invitation stays pending, so
the transition is not accepted whenever status is pending and the email
matches. -/
theorem C2_counterexample :
    (some "B@X.com").map strToLower = some (strToLower "b@x.com") ∧
    (dbC2.invitations.get "i1").map Invitation.status = some InvStatus.pending ∧
    (acceptInvitation dbC2 "b" (some "B@X.com") "i1" 0).1.success = false ∧
    ((acceptInvitation dbC2 "b" (some "B@X.com") "i1" 0).2.invitations.get "i1").map
      Invitation.status = some InvStatus.pending := by
  refine ⟨by decide, rfl, by decide, by decide⟩

/-- C2 (amended): given the invitation exists, acceptInvitation succeeds and
marks it accepted exactly when its status is pending, the verified caller
email matches the invitee email case-insensitively, and the invitation company
still exists; in every other case it fails and the whole database, the
invitation status included, is unchanged. -/
theorem C2_acceptInvitation_iff (db : DB) (uid : String) (email : Option String)
    (invId : String) (now : Nat) (inv : Invitation)
    (hinv : db.invitations.get invId = some inv) :
    ((acceptInvitation db uid email invId now).1.success = true ↔
      (inv.status = InvStatus.pending ∧
       email.map strToLower = some (strToLower inv.inviteeEmail) ∧
       (db.companies.get inv.companyId).isSome = true)) ∧
    ((acceptInvitation db uid email invId now).1.success = false →
      (acceptInvitation db uid email invId now).2 = db) ∧
    ((acceptInvitation db uid email invId now).1.success = true →
      ((acceptInvitation db uid email invId now).2.invitations.get invId).map
        Invitation.status = some InvStatus.accepted) := by
  by_cases he : email.map strToLower = some (strToLower inv.inviteeEmail)
  · by_cases hp : inv.status = InvStatus.pending
    · cases hc : db.companies.get inv.companyId with
      | none => simp [acceptInvitation, hinv, he, hp, hc, failOut]
      | some c =>
          simp [acceptInvitation, hinv, he, hp, hc, failOut, ok, Store.get_set_self]
    · simp [acceptInvitation, hinv, he, hp, failOut]
  · simp [acceptInvitation, hinv, he, failOut]

/-- C2 witness: at the witness state all three conditions hold concretely, and
the amended theorem yields a successful acceptance. -/
theorem C2_witness :
    (acceptInvitation dbC2w "b" (some "B@x.com") "i1" 5).1.success = true :=
  ((C2_acceptInvitation_iff dbC2w "b" (some "B@x.com") "i1" 5 invC2w rfl).1).mpr
    ⟨rfl, by decide, rfl⟩

/-- C3: every saveExpense call (the model covers the successful, post-token
path) stores an expense whose status is approved when the caller profile
carries no truthy company id (profile missing, field null, or empty string)
and pending when it does; the form payload, its status and companyId fields
included, never influences the stored status. -/
theorem C3_saveExpense_status (db : DB) (uid : String) (data : ExpenseFormData)
    (freshId : String) :
    (saveExpense db uid data freshId).1.success = true ∧
    ((saveExpense db uid data freshId).2.expenses.get freshId).map Expense.status =
      some (if optTruthy ((db.users.get uid).bind UserProfile.companyId)
            then ExpenseStatus.pending else ExpenseStatus.approved) := by
  refine ⟨rfl, ?_⟩
  unfold saveExpense
  simp only [Store.get_set_self, Option.map_some]
  rfl

/-- Folding the running JavaScript reduce sum equals the list sum of the net
prices. -/
theorem foldl_add_netPrice (l : List ExpenseItem) (a : Int) :
    l.foldl (fun sum item => sum + item.netPrice) a =
      a + (l.map ExpenseItem.netPrice).sum := by
  induction l generalizing a with
  | nil => simp
  | cons x xs ih => simp [ih, add_assoc]

/-- C4: the expense stored by saveExpense has every line-item quantity at
least 1, its items are exactly the form items mapped through the saveExpense
normalization (under which a missing, non-numeric, zero or negative quantity
becomes 1), and its total amount is exactly the sum of the stored net
prices. -/
theorem C4_saveExpense_items (db : DB) (uid : String) (data : ExpenseFormData)
    (freshId : String) (e : Expense)
    (he : (saveExpense db uid data freshId).2.expenses.get freshId = some e) :
    (∀ it ∈ e.items, 1 ≤ it.quantity) ∧
    e.totalAmount = (e.items.map ExpenseItem.netPrice).sum ∧
    e.items = data.items.map saveItem ∧
    (∀ r : RawItem, (r.quantity = none ∨ ∃ n : Int, r.quantity = some n ∧ n ≤ 0) →
      (saveItem r).quantity = 1) := by
  unfold saveExpense at he
  simp only [Store.get_set_self, Option.some.injEq] at he
  subst he
  refine ⟨?_, ?_, rfl, ?_⟩
  · intro it hit
    obtain ⟨r, _, rfl⟩ := List.mem_map.mp hit
    exact le_max_left 1 _
  · simpa using foldl_add_netPrice (data.items.map saveItem) 0
  · rintro r (hq | ⟨n, hn, hle⟩)
    · simp [saveItem, jsNumOr, hq]
    · by_cases h0 : n = 0
      · simp [saveItem, jsNumOr, hn, h0]
      · simp only [saveItem, jsNumOr, hn, h0, if_false]
        exact max_eq_left (by omega)

/-- C4 witness: the theorem applied at a concrete form with a missing, a zero,
a negative and a positive quantity; the stored document hypothesis is
discharged by evaluation. -/
theorem C4_witness :
    (∀ it ∈ expC4.items, 1 ≤ it.quantity) ∧
    expC4.totalAmount = (expC4.items.map ExpenseItem.netPrice).sum ∧
    expC4.items = dataC4.items.map saveItem ∧
    (∀ r : RawItem, (r.quantity = none ∨ ∃ n : Int, r.quantity = some n ∧ n ≤ 0) →
      (saveItem r).quantity = 1) :=
  C4_saveExpense_items dbC4 "u" dataC4 "x1" expC4 (by decide)

/-- C5: invitation acceptance is all-or-nothing. Whenever the call fails the
database is completely unchanged, and whenever it succeeds the existing
company has the acceptor in its member set, the invitation is stored as
accepted with the acceptor id and timestamp, and the acceptor profile carries
the invitation company id and intended role — the three updates of the one
transaction applied together. -/
theorem C5_acceptInvitation_atomic (db : DB) (uid : String) (email : Option String)
    (invId : String) (now : Nat) :
    ((acceptInvitation db uid email invId now).1.success = false →
      (acceptInvitation db uid email invId now).2 = db) ∧
    (∀ inv, db.invitations.get invId = some inv →
      (acceptInvitation db uid email invId now).1.success = true →
      ∃ c, db.companies.get inv.companyId = some c ∧
        (∃ c2, (acceptInvitation db uid email invId now).2.companies.get inv.companyId
            = some c2 ∧ uid ∈ c2.members) ∧
        ((acceptInvitation db uid email invId now).2.invitations.get invId =
          some { inv with status := InvStatus.accepted, acceptedBy := some uid,
                          acceptedAt := some now }) ∧
        (∃ u2, (acceptInvitation db uid email invId now).2.users.get uid = some u2 ∧
          u2.companyId = some inv.companyId ∧ u2.role = some inv.role)) := by
  cases hinv : db.invitations.get invId with
  | none =>
      constructor
      · intro _; simp [acceptInvitation, hinv]
      · intro inv h; exact Option.noConfusion h
  | some inv =>
      by_cases he : email.map strToLower = some (strToLower inv.inviteeEmail)
      · by_cases hp : inv.status = InvStatus.pending
        · cases hc : db.companies.get inv.companyId with
          | none =>
              constructor
              · intro _; simp [acceptInvitation, hinv, he, hp, hc]
              · intro inv' h hs
                injection h with h; subst h
                simp [acceptInvitation, hinv, he, hp, hc, failOut] at hs
          | some c =>
              constructor
              · intro hs; simp [acceptInvitation, hinv, he, hp, hc, ok] at hs
              · intro inv' h _
                injection h with h; subst h
                have hres : (acceptInvitation db uid email invId now).2 =
                    { db with
                      companies := db.companies.set inv.companyId
                        { c with members := if uid ∈ c.members then c.members
                                            else c.members ++ [uid] }
                      invitations := db.invitations.set invId
                        { inv with status := InvStatus.accepted,
                                   acceptedBy := some uid, acceptedAt := some now }
                      users := db.users.set uid (acceptedProfile db uid inv) } := by
                  simp [acceptInvitation, hinv, he, hp, hc]
                refine ⟨c, hc, ?_, ?_, ?_⟩
                · refine ⟨_, by rw [hres]; exact Store.get_set_self _ _ _, ?_⟩
                  by_cases hm : uid ∈ c.members <;> simp [hm]
                · rw [hres]; exact Store.get_set_self _ _ _
                · refine ⟨acceptedProfile db uid inv,
                    by rw [hres]; exact Store.get_set_self _ _ _, ?_, ?_⟩
                  · unfold acceptedProfile; cases db.users.get uid <;> rfl
                  · unfold acceptedProfile; cases db.users.get uid <;> rfl
        · constructor
          · intro _; simp [acceptInvitation, hinv, he, hp]
          · intro inv' h hs
            injection h with h; subst h
            simp [acceptInvitation, hinv, he, hp, failOut] at hs
      · constructor
        · intro _; simp [acceptInvitation, hinv, he]
        · intro inv' h hs
          injection h with h; subst h
          simp [acceptInvitation, hinv, he, failOut] at hs

/-- C5 witness: a concrete acceptance in the witness state, with the
invitation marked accepted as a consequence of the atomicity theorem. -/
theorem C5_witness :
    ((acceptInvitation dbC5 "b" (some "b@x.com") "i1" 7).2.invitations.get "i1").map
      Invitation.status = some InvStatus.accepted := by
  obtain ⟨c, hc, hmem, hinv2, hprof⟩ :=
    (C5_acceptInvitation_atomic dbC5 "b" (some "b@x.com") "i1" 7).2 invC5 rfl (by decide)
  rw [hinv2]
  rfl

/-- C6 counterexample: before the call the invariant holds for c1, yet an
ownership transfer by the owner to a non-member succeeds and leaves a company
whose ownerId x is not in its member set — so the member set does not always
contain the owner id. -/
theorem C6_counterexample :
    ((dbC6.companies.get "c1").map (fun c => decide (c.ownerId ∈ c.members))
      = some true) ∧
    (updateUserRole dbC6 "o" "x" "c1" Role.owner).1.success = true ∧
    ((updateUserRole dbC6 "o" "x" "c1" Role.owner).2.companies.get "c1").map
      (fun c => decide (c.ownerId ∈ c.members)) = some false := by decide

/-- C6 (amended): createCompany stores the creator as owner and sole member;
removeUserFromCompany and leaveCompany reject any call targeting the current
owner without changing anything, and never remove the stored owner id from the
member set. (The original claim fails only because updateUserRole can transfer
ownership to a user outside the member set.) -/
theorem C6_owner_membership (db : DB) :
    (∀ uid nm fid, (createCompany db uid nm fid).1.success = true →
       ∃ c, (createCompany db uid nm fid).2.companies.get fid = some c ∧
         c.ownerId ∈ c.members) ∧
    (∀ rq target cid c, db.companies.get cid = some c → target = c.ownerId →
       (removeUserFromCompany db rq target cid).1.success = false ∧
       (removeUserFromCompany db rq target cid).2 = db) ∧
    (∀ uid cid c, db.companies.get cid = some c → uid = c.ownerId →
       (leaveCompany db uid cid).1.success = false ∧
       (leaveCompany db uid cid).2 = db) ∧
    (∀ rq target cid c c2, db.companies.get cid = some c →
       (removeUserFromCompany db rq target cid).2.companies.get cid = some c2 →
       c.ownerId ∈ c.members → c.ownerId ∈ c2.members) ∧
    (∀ uid cid c c2, db.companies.get cid = some c →
       (leaveCompany db uid cid).2.companies.get cid = some c2 →
       c.ownerId ∈ c.members → c.ownerId ∈ c2.members) := by
  refine ⟨?_, ?_, ?_, ?_, ?_⟩
  · intro uid nm fid hs
    cases hu : db.users.get uid with
    | none =>
        refine ⟨{ name := nm, ownerId := uid, members := [uid] }, ?_, by simp⟩
        simp [createCompany, hu, Store.get_set_self]
    | some u =>
        by_cases ha : optTruthy u.companyId
        · simp [createCompany, hu, ha, failOut] at hs
        · refine ⟨{ name := nm, ownerId := uid, members := [uid] }, ?_, by simp⟩
          simp [createCompany, hu, ha, Store.get_set_self]
  · intro rq target cid c hc htg
    simp [removeUserFromCompany, hc, htg, failOut]
  · intro uid cid c hc htg
    simp [leaveCompany, hc, htg, failOut]
  · intro rq target cid c c2 hc hc2 hmem
    by_cases ht : target = c.ownerId
    · have hr : (removeUserFromCompany db rq target cid).2 = db := by
        simp [removeUserFromCompany, hc, ht]
      rw [hr, hc] at hc2
      injection hc2 with h; subst h; exact hmem
    · cases hrq : db.users.get rq with
      | none =>
          have hr : (removeUserFromCompany db rq target cid).2 = db := by
            simp [removeUserFromCompany, hc, ht, hrq]
          rw [hr, hc] at hc2
          injection hc2 with h; subst h; exact hmem
      | some rp =>
          by_cases hauth : rp.companyId ≠ some cid ∨
              (rp.role ≠ some Role.owner ∧ rp.role ≠ some Role.admin)
          · have hr : (removeUserFromCompany db rq target cid).2 = db := by
              simp [removeUserFromCompany, hc, ht, hrq, hauth]
            rw [hr, hc] at hc2
            injection hc2 with h; subst h; exact hmem
          · have hcid : rp.companyId = some cid := by
              by_contra hx; exact hauth (Or.inl hx)
            by_cases hadm : rp.role = some Role.admin
            · have hr : (removeUserFromCompany db rq target cid).2 = db := by
                simp [removeUserFromCompany, hc, ht, hrq, hauth, hcid, hadm]
              rw [hr, hc] at hc2
              injection hc2 with h; subst h; exact hmem
            · have hown : rp.role = some Role.owner := by
                by_contra hx; exact hauth (Or.inr ⟨hx, hadm⟩)
              cases htu : db.users.get target with
              | none =>
                  have hr : (removeUserFromCompany db rq target cid).2 = db := by
                    simp [removeUserFromCompany, hc, ht, hrq, hauth, hcid, hown,
                          hadm, htu]
                  rw [hr, hc] at hc2
                  injection hc2 with h; subst h; exact hmem
              | some t =>
                  have hr : (removeUserFromCompany db rq target cid).2.companies.get cid =
                      some { c with members :=
                        c.members.filter (fun m => m ≠ target) } := by
                    simp [removeUserFromCompany, hc, ht, hrq, hauth, hcid, hown,
                          hadm, htu, Store.get_set_self]
                  rw [hr] at hc2
                  injection hc2 with h; subst h
                  exact List.mem_filter.mpr
                    ⟨hmem, decide_eq_true (fun hh => ht hh.symm)⟩
  · intro uid cid c c2 hc hc2 hmem
    by_cases ht : uid = c.ownerId
    · have hr : (leaveCompany db uid cid).2 = db := by
        simp [leaveCompany, hc, ht]
      rw [hr, hc] at hc2
      injection hc2 with h; subst h; exact hmem
    · cases hu : db.users.get uid with
      | none =>
          have hr : (leaveCompany db uid cid).2 = db := by
            simp [leaveCompany, hc, ht, hu]
          rw [hr, hc] at hc2
          injection hc2 with h; subst h; exact hmem
      | some u =>
          have hr : (leaveCompany db uid cid).2.companies.get cid =
              some { c with members := c.members.filter (fun m => m ≠ uid) } := by
            simp [leaveCompany, hc, ht, hu, Store.get_set_self]
          rw [hr] at hc2
          injection hc2 with h; subst h
          exact List.mem_filter.mpr ⟨hmem, decide_eq_true (fun hh => ht hh.symm)⟩

/-- C6 witness: the amended theorem applied at the counterexample state,
showing the rejection of removing the owner with hypotheses discharged by
evaluation. -/
theorem C6_witness :
    (removeUserFromCompany dbC6 "o" "o" "c1").1.success = false ∧
    (removeUserFromCompany dbC6 "o" "o" "c1").2 = dbC6 :=
  (C6_owner_membership dbC6).2.1 "o" "o" "c1"
    { name := "Acme", ownerId := "o", members := ["o"] } rfl rfl

/-- C7: whenever the requester of updateUserRole has role admin and either the
requested role is owner or admin, or the target user currently has role owner
or admin, the call fails and the database is unchanged. (For an owner or admin
newRole this is the explicit guard; in the remaining cases the call to
targetUserProfileDoc.exists() raises a TypeError caught by the outer catch
before any write, so it fails as well.) -/
theorem C7_admin_role_change_fails (db : DB) (rq target cid : String)
    (newRole : Role) (rp : UserProfile) (hrp : db.users.get rq = some rp)
    (hadmin : rp.role = some Role.admin)
    (_hcase : newRole = Role.owner ∨ newRole = Role.admin ∨
      (db.users.get target).bind UserProfile.role = some Role.owner ∨
      (db.users.get target).bind UserProfile.role = some Role.admin) :
    (updateUserRole db rq target cid newRole).1.success = false ∧
    (updateUserRole db rq target cid newRole).2 = db := by
  by_cases hcid : rp.companyId = some cid
  · cases hcomp : db.companies.get cid with
    | none => simp [updateUserRole, hrp, hcid, hcomp, failOut]
    | some cData =>
        by_cases hnr : newRole = Role.owner ∨ newRole = Role.admin
        · simp [updateUserRole, hrp, hcid, hcomp, hadmin, hnr, failOut]
        · simp [updateUserRole, hrp, hcid, hcomp, hadmin, hnr, failOut]
  · simp [updateUserRole, hrp, hcid, failOut]

/-- C7 witness: an admin attempting to change the role of the owner fails with
the database unchanged, hypotheses discharged by evaluation. -/
theorem C7_witness :
    (updateUserRole dbC7 "a" "t" "c1" Role.user).1.success = false ∧
    (updateUserRole dbC7 "a" "t" "c1" Role.user).2 = dbC7 :=
  C7_admin_role_change_fails dbC7 "a" "t" "c1" Role.user
    { companyId := some "c1", role := some Role.admin } rfl rfl (by decide)

/-- C8 at the failing input: invitee b@x.com already belongs to company c1,
yet sendInvitation succeeds and stores a pending invitation — the
already-a-member rejection is unreachable, because the membership check calls
exists() on an admin-SDK snapshot, whose TypeError the inner catch swallows. -/
theorem C8_already_member_invited :
    ((dbC8.users.get "ub").bind UserProfile.companyId = some "c1") ∧
    (dbC8.authEmails.get "b@x.com" = some "ub") ∧
    (sendInvitation dbC8 "o" "c1" "b@x.com" Role.user "i1").1.success = true ∧
    (((sendInvitation dbC8 "o" "c1" "b@x.com" Role.user "i1").2.invitations.get
        "i1").map Invitation.status = some InvStatus.pending) ∧
    checkInviteeMembership dbC8 "b@x.com" =
      Except.error (JsErr.typeError "inviteeProfileDoc.exists is not a function") := by
  refine ⟨by decide, by decide, by decide, by decide, rfl⟩

/-- C9 counterexample: a negative quantity returned by the model is not
defaulted to 1 by processReceiptImage — Number(q) || 1 only replaces NaN and
0 — so a non-positive input quantity survives normalization. -/
theorem C9_counterexample :
    (processReceiptImage rawC9 "2026-10-11").items.map ExpenseItem.quantity = [-2] ∧
    ¬(1 ≤ (-2 : Int)) ∧
    (processReceiptImage rawC9 "2026-10-11").category = "other" := by decide

/-- C9 (amended): every processReceiptImage result carries a category from the
fixed five-value list (unrecognised values coerced to other), a payment method
from the fixed four-value list (unrecognised values coerced to other), items
mapped through the numeric defaults — quantity becomes 1 when missing,
non-numeric or zero but a non-zero (even negative) quantity is kept, net price
becomes 0 when missing or non-numeric — and a missing expense date replaced by
the current date. -/
theorem C9_processReceiptImage_normalized (result : AIReceiptResult) (today : String) :
    (processReceiptImage result today).category ∈ expenseCategories ∧
    (result.category ∉ expenseCategories →
      (processReceiptImage result today).category = "other") ∧
    (processReceiptImage result today).paymentMethod ∈ paymentMethods ∧
    (result.paymentMethod ∉ paymentMethods →
      (processReceiptImage result today).paymentMethod = "other") ∧
    (processReceiptImage result today).items = result.items.map procItem ∧
    (∀ r : RawAIItem, (r.quantity = none ∨ r.quantity = some 0) →
      (procItem r).quantity = 1) ∧
    (∀ r : RawAIItem, ∀ n : Int, r.quantity = some n → n ≠ 0 →
      (procItem r).quantity = n) ∧
    (∀ r : RawAIItem, r.netPrice = none → (procItem r).netPrice = 0) ∧
    (result.expenseDate = "" →
      (processReceiptImage result today).expenseDate = today) := by
  refine ⟨?_, ?_, ?_, ?_, rfl, ?_, ?_, ?_, ?_⟩
  · unfold processReceiptImage validateCategory
    by_cases h : result.category ∈ expenseCategories
    · rw [if_pos h]; exact h
    · rw [if_neg h]
      exact (by decide : ("other" : String) ∈ expenseCategories)
  · intro h; simp [processReceiptImage, validateCategory, h]
  · unfold processReceiptImage validatePaymentMethod
    by_cases h : result.paymentMethod ∈ paymentMethods
    · rw [if_pos h]; exact h
    · rw [if_neg h]
      exact (by decide : ("other" : String) ∈ paymentMethods)
  · intro h; simp [processReceiptImage, validatePaymentMethod, h]
  · rintro r (h | h) <;> simp [procItem, jsNumOr, h]
  · intro r n h hn; simp [procItem, jsNumOr, h, hn]
  · intro r h; simp [procItem, jsNumOr, h]
  · intro h; simp [processReceiptImage, h]

/-- C9 witness: the amended theorem applied at the concrete input, hypotheses
discharged by evaluation: the unrecognised category is coerced and the falsy
date replaced. -/
theorem C9_witness :
    (processReceiptImage rawC9 "2026-10-11").category = "other" ∧
    (processReceiptImage rawC9 "2026-10-11").expenseDate = "2026-10-11" :=
  ⟨(C9_processReceiptImage_normalized rawC9 "2026-10-11").2.1 (by decide),
   (C9_processReceiptImage_normalized rawC9 "2026-10-11").2.2.2.2.2.2.2.2 rfl⟩

/-- C10: leaveCompany performs no membership check. For every state where the
named company exists, the caller is not its owner and the caller profile
exists — with no assumption that the caller belongs to this company or to any
— the call succeeds, clears the caller profile company id and role to null,
and filters the caller out of the member array. -/
theorem C10_leaveCompany_no_membership_check (db : DB) (uid cid : String)
    (c : Company) (u : UserProfile)
    (hc : db.companies.get cid = some c) (howner : uid ≠ c.ownerId)
    (hu : db.users.get uid = some u) :
    (leaveCompany db uid cid).1.success = true ∧
    (leaveCompany db uid cid).2.users.get uid =
      some { companyId := none, role := none } ∧
    ∃ c2, (leaveCompany db uid cid).2.companies.get cid = some c2 ∧
      c2.members = c.members.filter (fun m => m ≠ uid) := by
  refine ⟨?_, ?_, ?_⟩
  · simp [leaveCompany, hc, howner, hu, ok]
  · simp [leaveCompany, hc, howner, hu, Store.get_set_self]
  · exact ⟨{ c with members := c.members.filter (fun m => m ≠ uid) },
      by simp [leaveCompany, hc, howner, hu, Store.get_set_self], rfl⟩

/-- C10 witness: caller z, whose profile points at a different company and who
is not a member of c1, successfully leaves c1, with hypotheses discharged by
evaluation. -/
theorem C10_witness :
    (leaveCompany dbC10 "z" "c1").1.success = true ∧
    (leaveCompany dbC10 "z" "c1").2.users.get "z" =
      some { companyId := none, role := none } ∧
    ∃ c2, (leaveCompany dbC10 "z" "c1").2.companies.get "c1" = some c2 ∧
      c2.members = (["o", "m"] : List String).filter (fun m => m ≠ "z") :=
  C10_leaveCompany_no_membership_check dbC10 "z" "c1"
    { name := "Acme", ownerId := "o", members := ["o", "m"] }
    { companyId := some "other", role := some Role.user } rfl (by decide) rfl

end ReceiptSnap
